import Mathlib

/-!
Shallow embedding of `collector/tasks.go` from the elasticsearch_exporter
repository, together with proofs of the specification claims about it.

Modelling conventions:
* Go `map[string]int64` is modelled as an association list with unique keys
  (`List (String × Int)`); the observable content of a Go map is its
  key → value graph, exposed here through `lookupAssoc`.
* Go `int64` counters are modelled as `Int`. The counters only ever move
  from 0 upward by `+= 1`, once per list element, so no wrap-around at
  `2^63` can occur for any in-memory snapshot.
* The JSON wire format is modelled at the level of parsed JSON values
  (`Json` below); `encoding/json`'s struct decoding of `TasksResponse` /
  `TaskResponse` from a JSON value is embedded in `unmarshalTasksResponse`,
  including its treatment of unknown object fields (ignored), absent fields
  (zero value), `null` (no-op) and duplicate keys (last one wins).
* Effects of the fetch (the outcome of `http.Client.Get`, of reading and
  parsing the body, and of `res.Body.Close`) are passed in explicitly.
  Log output is returned as an explicit list of (message, detail) pairs.
-/

namespace ElasticsearchExporter

/-- One task item as decoded from the task API endpoint
(`TaskResponse` in tasks.go): only the `action` field is parsed. -/
structure TaskResponse where
  Action : String
deriving DecidableEq, Repr

/-- The decoded body of the `_tasks` endpoint (`TasksResponse` in tasks.go). -/
structure TasksResponse where
  Tasks : List TaskResponse
deriving DecidableEq, Repr

/-- Aggregated task counts (`AggregatedTaskStats` in tasks.go).
The Go `map[string]int64` is modelled as an association list with
unique keys. -/
structure AggregatedTaskStats where
  CountByAction : List (String × Int)
deriving DecidableEq, Repr

/-- First-match lookup in an association list; this is the observable
read operation of a Go map (and of `url.Values.Get`). -/
def lookupAssoc {α : Type} : List (String × α) → String → Option α
  | [], _ => none
  | p :: rest, k => if p.1 = k then some p.2 else lookupAssoc rest k

/-- Go map increment `actions[a] += 1`: if the key is present its value is
incremented, otherwise the key is inserted with value 1. -/
def bumpAction : List (String × Int) → String → List (String × Int)
  | [], a => [(a, 1)]
  | p :: rest, a => if p.1 = a then (p.1, p.2 + 1) :: rest else p :: bumpAction rest a

/-- Function `AggregateTasks` from tasks.go: fold the task list over an initially
empty map, incrementing the count keyed by each task's action. -/
def AggregateTasks (t : TasksResponse) : AggregatedTaskStats :=
  { CountByAction := t.Tasks.foldl (fun m task => bumpAction m task.Action) [] }

/-- Number of records in a snapshot whose `action` field equals `a`. -/
def countAction (l : List TaskResponse) (a : String) : Nat :=
  (l.filter (fun r => r.Action = a)).length

/-! JSON values and `encoding/json` struct decoding

`json.Unmarshal(bts, &tr)` first parses the bytes and then decodes the
resulting JSON value into the `TasksResponse` / `TaskResponse` structs.
The parse phase is kept abstract (a body is supplied either as a parsed
`Json` value or as a parse/read error); the struct-decoding phase is
embedded below with Go semantics: unknown object fields are ignored,
an absent field leaves the zero value, `null` is a no-op, a duplicate
key makes the last occurrence win, and a type mismatch is an error. -/

/-- A parsed JSON value. Numbers are irrelevant to the decoded structs and
are carried as `Int`. -/
inductive Json where
  | null : Json
  | bool : Bool → Json
  | num : Int → Json
  | str : String → Json
  | arr : List Json → Json
  | obj : List (String × Json) → Json
deriving Repr

/-- Field lookup as `encoding/json` performs it when decoding an object
into a struct: each occurrence of the key overwrites the previous one, so
the last occurrence wins. -/
def jsonLookup : List (String × Json) → String → Option Json
  | [], _ => none
  | p :: rest, k =>
    match jsonLookup rest k with
    | some v => some v
    | none => if p.1 = k then some p.2 else none

/-- Decoding one task item into `TaskResponse`: only the `action` field is
read; every other field is ignored; an absent or `null` field leaves the
zero value `""`; a non-string `action` is a decode error. -/
def decodeTaskResponse : Json → Except String TaskResponse
  | Json.obj fields =>
    match jsonLookup fields "action" with
    | none => Except.ok { Action := "" }
    | some Json.null => Except.ok { Action := "" }
    | some (Json.str s) => Except.ok { Action := s }
    | some _ => Except.error "json: cannot unmarshal value into field action of type string"
  | Json.null => Except.ok { Action := "" }
  | _ => Except.error "json: cannot unmarshal value into TaskResponse"

/-- Decoding the `tasks` array element by element; the first failing
element makes the whole decode fail. -/
def decodeTaskList : List Json → Except String (List TaskResponse)
  | [] => Except.ok []
  | j :: rest =>
    match decodeTaskResponse j, decodeTaskList rest with
    | Except.ok t, Except.ok ts => Except.ok (t :: ts)
    | Except.error e, _ => Except.error e
    | _, Except.error e => Except.error e

/-- Go `json.Unmarshal` of the whole body into `TasksResponse`: the `tasks`
field must be an array (or `null`/absent, leaving the zero value); every
other field of the response object is ignored. -/
def unmarshalTasksResponse : Json → Except String TasksResponse
  | Json.obj fields =>
    match jsonLookup fields "tasks" with
    | none => Except.ok { Tasks := [] }
    | some Json.null => Except.ok { Tasks := [] }
    | some (Json.arr js) => (decodeTaskList js).map (fun ts => { Tasks := ts })
    | some _ => Except.error "json: cannot unmarshal value into field tasks of type array"
  | Json.null => Except.ok { Tasks := [] }
  | _ => Except.error "json: cannot unmarshal value into TasksResponse"

/-! URLs and the request sent upstream -/

/-- The parts of a `url.URL` that this collector reads or writes.
`host` is the hostname and `port` the port string (`u.Hostname()` and
`u.Port()` in Go); `query` is the decoded query, an association list of
key/value pairs as in `url.Values` with single-valued keys. -/
structure URL where
  scheme : String
  host : String
  port : String
  path : String
  query : List (String × String)
deriving DecidableEq, Repr

/-- Go's `resolvePath` for the fixed relative reference `"_tasks"`:
the base path up to and including its last `/` (empty when there is no
slash) is prepended to `_tasks`, and the result is made absolute.
Dot-segment removal is the identity here because `_tasks` contains no dot
segments. -/
def resolveTasksPath (basePath : String) : String :=
  let merged := String.mk ((basePath.toList.reverse.dropWhile (fun c => ¬ c = '/')).reverse) ++ "_tasks"
  if merged.toList.head? = some '/' then merged else "/" ++ merged

/-- The URL built by `fetchAndDecodeAndAggregateTaskStats`:
`t.u.ResolveReference` with a reference URL whose `Path` is `"_tasks"`
(the reference carries no query, so the resolved query starts empty), then
`q.Set("group_by", "none")`, `q.Set("actions", actionFilter)` and
`u.RawQuery = q.Encode()`. `Encode` writes keys in sorted order, and
`"actions" < "group_by"`, so the query is the two pairs below. -/
def buildTasksURL (base : URL) (actionFilter : String) : URL :=
  { scheme := base.scheme
    host := base.host
    port := base.port
    path := resolveTasksPath base.path
    query := [("actions", actionFilter), ("group_by", "none")] }

/-- Encoded query: `k=v` pairs joined with `&`, in the order of the list (already sorted
by key for `buildTasksURL`). Percent-escaping of the textual form is not
modelled; the claims are about the decoded parameters. -/
def encodeQuery : List (String × String) → String
  | [] => ""
  | [p] => p.1 ++ "=" ++ p.2
  | p :: rest => p.1 ++ "=" ++ p.2 ++ "&" ++ encodeQuery rest

/-- Host `u.Hostname()` and `u.Port()` joined back into `u.Host`. -/
def URL.hostport (u : URL) : String :=
  if u.port = "" then u.host else u.host ++ ":" ++ u.port

/-- Rendering `u.String()`: scheme, host, path and encoded query. -/
def URL.render (u : URL) : String :=
  u.scheme ++ "://" ++ u.hostport ++ u.path ++
    (if u.query = [] then "" else "?" ++ encodeQuery u.query)

/-- The HTTP request issued by the fetch. `t.hc.Get` always issues a GET. -/
structure HttpRequest where
  method : String
  url : URL
deriving DecidableEq, Repr

/-- The request sent upstream each cycle. -/
def fetchRequest (base : URL) (actionFilter : String) : HttpRequest :=
  { method := "GET", url := buildTasksURL base actionFilter }

/-! The collector, the fetch pipeline and `Update`

Effects are passed in explicitly: the outcome of `t.hc.Get` (either a
transport error string or a response), the response's status code, the
outcome of reading and parsing the body, and the outcome of
`res.Body.Close()`. The metric channel is modelled as the returned list of
emitted samples, and log output as a returned list of (message, detail)
pairs. -/

/-- Opaque stand-in for `log.Logger`. -/
structure Logger where
  id : String
deriving DecidableEq, Repr

/-- Opaque stand-in for `*http.Client`. -/
structure HttpClient where
  id : String
deriving DecidableEq, Repr

/-- Structure `TaskCollector` from tasks.go. -/
structure TaskCollector where
  logger : Logger
  hc : HttpClient
  u : URL
deriving DecidableEq, Repr

/-- Constructor `NewTaskCollector`: logs one line recording the active action filter
and returns the collector; it has no failure path. The process-wide
`actionFilter` global is passed explicitly. Returns the result paired with
the emitted log lines. -/
def NewTaskCollector (logger : Logger) (u : URL) (hc : HttpClient)
    (actionFilter : String) :
    Except String TaskCollector × List (String × String) :=
  (Except.ok { logger := logger, hc := hc, u := u },
   [("task collector created", actionFilter)])

/-- The response observed for a `Get` that reached the server: its status
code, and the combined outcome of `io.ReadAll` plus the JSON parse phase
of `json.Unmarshal` (an error string for a read failure or malformed
JSON, otherwise the parsed value). -/
structure HttpResponse where
  statusCode : Nat
  bodyRead : Except String Json

/-- Warning log lines produced by the deferred `res.Body.Close()`:
a failing close logs `"failed to close http.Client"` with the error. -/
def closeWarnings : Except String Unit → List (String × String)
  | Except.error ce => [("failed to close http.Client", ce)]
  | Except.ok _ => []

/-- Function `fetchAndDecodeAndAggregateTaskStats` from tasks.go.
`httpGet` is the outcome of `t.hc.Get(u.String())`; `closeResult` the
outcome of the deferred `res.Body.Close()`. Returns the function's result
paired with the warning log lines. The deferred close assigns its error
to a local variable only (the returns are unnamed), so it cannot alter
the result; it runs on every exit path reached after a successful `Get`. -/
def TaskCollector.fetchAndDecodeAndAggregateTaskStats
    (t : TaskCollector) (actionFilter : String)
    (httpGet : Except String HttpResponse)
    (closeResult : Except String Unit) :
    Except String AggregatedTaskStats × List (String × String) :=
  let u := buildTasksURL t.u actionFilter
  match httpGet with
  | Except.error e =>
    (Except.error ("failed to get data stream stats health from " ++
        u.scheme ++ "://" ++ u.host ++ ":" ++ u.port ++ u.path ++ ": " ++ e), [])
  | Except.ok res =>
    let warnings := closeWarnings closeResult
    if res.statusCode ≠ 200 then
      (Except.error ("HTTP Request to " ++ u.render ++ " failed with code " ++
          toString res.statusCode), warnings)
    else
      match res.bodyRead with
      | Except.error e => (Except.error e, warnings)
      | Except.ok j =>
        match unmarshalTasksResponse j with
        | Except.error e => (Except.error e, warnings)
        | Except.ok tr => (Except.ok (AggregateTasks tr), warnings)

/-- The fixed metric descriptor `taskActionDesc` (fully qualified name of
the gauge); namespace `elasticsearch`, subsystem `task_stats`, name
`action_total`. -/
def taskActionDescName : String := "elasticsearch_task_stats_action_total"

/-- One metric sample sent on the channel by `Update`:
`prometheus.MustNewConstMetric(taskActionDesc, prometheus.GaugeValue,
float64(count), action)`. The gauge value `float64(count)` is recorded as
the integer count itself (the conversion is exact for every count below
2^53, and counts equal snapshot lengths). -/
structure Metric where
  desc : String
  value : Int
  action : String
deriving DecidableEq, Repr

/-- Method `TaskCollector.Update`: run the fetch; on failure wrap the error and
emit nothing; on success emit one gauge sample per entry of
`CountByAction`. Returns (samples emitted on the channel, error returned
to the caller — `none` for a nil error), plus no state: each cycle is a
pure function of its own inputs, so nothing can carry over between
cycles. -/
def TaskCollector.Update (t : TaskCollector) (actionFilter : String)
    (httpGet : Except String HttpResponse)
    (closeResult : Except String Unit) :
    List Metric × Option String :=
  match (t.fetchAndDecodeAndAggregateTaskStats actionFilter httpGet closeResult).1 with
  | Except.error e => ([], some ("failed to fetch and decode task stats: " ++ e))
  | Except.ok stats =>
    (stats.CountByAction.map
      (fun p => { desc := taskActionDescName, value := p.2, action := p.1 }), none)

/-! Concrete fixtures used by the witness theorems -/

/-- A collector as built by `NewTaskCollector` for base URL
`http://localhost:9200/`. -/
def sampleCollector : TaskCollector :=
  { logger := { id := "logger" }
    hc := { id := "client" }
    u := { scheme := "http", host := "localhost", port := "9200", path := "/", query := [] } }

/-- A parsed 200-response body with two distinct actions, one of them
repeated (the example from the spec's testable properties). -/
def sampleBody : Json :=
  Json.obj [("tasks", Json.arr
    [Json.obj [("action", Json.str "indices:data/write/bulk")],
     Json.obj [("action", Json.str "indices:data/write/bulk")],
     Json.obj [("action", Json.str "cluster:monitor/nodes/stats")]])]

/-- The snapshot decoded from `sampleBody`. -/
def sampleSnapshot : TasksResponse :=
  { Tasks := [{ Action := "indices:data/write/bulk" },
              { Action := "indices:data/write/bulk" },
              { Action := "cluster:monitor/nodes/stats" }] }

/-- The 503 response used to witness claim C4; its body is deliberately a
read error to show the body is never consulted. -/
def res503 : HttpResponse := { statusCode := 503, bodyRead := Except.error "unused" }

/-! Lemmas about `bumpAction` and the aggregation fold -/

theorem lookupAssoc_bumpAction (m : List (String × Int)) (a b : String) :
    lookupAssoc (bumpAction m a) b =
      if b = a then some ((lookupAssoc m b).getD 0 + 1) else lookupAssoc m b := by
  induction m with
  | nil =>
    by_cases hba : b = a
    · subst hba; simp [bumpAction, lookupAssoc]
    · have hab : ¬ a = b := fun h => hba h.symm
      simp [bumpAction, lookupAssoc, hab, hba]
  | cons p rest ih =>
    by_cases hba : b = a
    · subst hba
      by_cases hpa : p.1 = b
      · simp [bumpAction, lookupAssoc, hpa]
      · simp [bumpAction, lookupAssoc, hpa, ih]
    · have hab : ¬ a = b := fun h => hba h.symm
      by_cases hpa : p.1 = a
      · have hpb : ¬ p.1 = b := fun h => hab (hpa.symm.trans h)
        simp [bumpAction, lookupAssoc, hpa, hpb, hba, hab]
      · by_cases hpb : p.1 = b
        · simp [bumpAction, lookupAssoc, hpa, hpb, hba, hab]
        · simp [bumpAction, lookupAssoc, hpa, hpb, hba, hab, ih]

theorem countAction_cons (r : TaskResponse) (l : List TaskResponse) (a : String) :
    countAction (r :: l) a = (if r.Action = a then 1 else 0) + countAction l a := by
  by_cases h : r.Action = a <;> simp [countAction, h, Nat.add_comm]

theorem lookupAssoc_aggFold_getD (l : List TaskResponse) :
    ∀ (m : List (String × Int)) (a : String),
      (lookupAssoc (l.foldl (fun m task => bumpAction m task.Action) m) a).getD 0
        = (lookupAssoc m a).getD 0 + countAction l a := by
  induction l with
  | nil => intro m a; simp [countAction]
  | cons r t ih =>
    intro m a
    rw [List.foldl_cons, ih, countAction_cons, lookupAssoc_bumpAction]
    by_cases har : a = r.Action
    · subst har
      simp only [if_pos rfl, Option.getD_some, eq_self_iff_true, if_true]
      push_cast
      ring
    · have hra : ¬ r.Action = a := fun h => har h.symm
      simp only [if_neg har, if_neg hra]
      push_cast
      ring

theorem lookupAssoc_aggFold_none (l : List TaskResponse) :
    ∀ (m : List (String × Int)) (a : String),
      lookupAssoc (l.foldl (fun m task => bumpAction m task.Action) m) a = none
        ↔ (lookupAssoc m a = none ∧ countAction l a = 0) := by
  induction l with
  | nil => intro m a; simp [countAction]
  | cons r t ih =>
    intro m a
    rw [List.foldl_cons, ih, lookupAssoc_bumpAction, countAction_cons]
    by_cases har : a = r.Action
    · subst har
      simp only [eq_self_iff_true, if_true]
      constructor
      · rintro ⟨h1, -⟩; exact absurd h1 (by simp)
      · rintro ⟨-, h2⟩; omega
    · have hra : ¬ r.Action = a := fun h => har h.symm
      simp [if_neg har, hra]

/-- Characterisation of `AggregateTasks`: looking up an action yields
exactly the number of records carrying it, and no entry at all when no
record carries it. -/
theorem lookupAssoc_AggregateTasks (tr : TasksResponse) (a : String) :
    lookupAssoc (AggregateTasks tr).CountByAction a =
      if countAction tr.Tasks a = 0 then none
      else some (countAction tr.Tasks a : Int) := by
  have hnone := lookupAssoc_aggFold_none tr.Tasks [] a
  have hgetD := lookupAssoc_aggFold_getD tr.Tasks [] a
  have hagg : (AggregateTasks tr).CountByAction
      = tr.Tasks.foldl (fun m task => bumpAction m task.Action) [] := rfl
  rw [hagg]
  by_cases h : countAction tr.Tasks a = 0
  · rw [if_pos h]
    exact hnone.mpr ⟨rfl, h⟩
  · rw [if_neg h]
    cases hx : lookupAssoc (tr.Tasks.foldl (fun m task => bumpAction m task.Action) []) a with
    | none => exact absurd (hnone.mp hx).2 h
    | some v =>
      rw [hx] at hgetD
      simp only [Option.getD_some, lookupAssoc, Option.getD_none] at hgetD
      rw [hgetD]
      ring_nf

/-! Further lemmas about the aggregated map -/

theorem lookupAssoc_eq_none_iff {α : Type} (m : List (String × α)) (k : String) :
    lookupAssoc m k = none ↔ k ∉ m.map Prod.fst := by
  induction m with
  | nil => simp [lookupAssoc]
  | cons p rest ih =>
    by_cases h : p.1 = k
    · have hk : k = p.1 := h.symm
      rw [lookupAssoc, if_pos h]
      simp [List.mem_cons, hk]
    · have hk : ¬ k = p.1 := fun he => h he.symm
      rw [lookupAssoc, if_neg h, ih]
      simp [List.mem_cons, hk]

theorem countAction_ne_zero_iff (l : List TaskResponse) (a : String) :
    countAction l a ≠ 0 ↔ ∃ r ∈ l, r.Action = a := by
  induction l with
  | nil => simp [countAction]
  | cons r t ih =>
    rw [countAction_cons]
    by_cases h : r.Action = a
    · constructor
      · intro _; exact ⟨r, by simp, h⟩
      · intro _; simp [h]
    · simp [h, ih]

theorem mem_keys_AggregateTasks (tr : TasksResponse) (a : String) :
    a ∈ (AggregateTasks tr).CountByAction.map Prod.fst ↔ ∃ r ∈ tr.Tasks, r.Action = a := by
  rw [← countAction_ne_zero_iff]
  constructor
  · intro hmem hc
    have h := lookupAssoc_AggregateTasks tr a
    rw [if_pos hc, lookupAssoc_eq_none_iff] at h
    exact h hmem
  · intro hc
    by_contra hmem
    have h := lookupAssoc_AggregateTasks tr a
    rw [if_neg hc, (lookupAssoc_eq_none_iff _ a).mpr hmem] at h
    exact Option.noConfusion h

theorem mem_keys_bumpAction (m : List (String × Int)) (a b : String) :
    b ∈ (bumpAction m a).map Prod.fst ↔ b ∈ m.map Prod.fst ∨ b = a := by
  induction m with
  | nil => simp [bumpAction]
  | cons p rest ih =>
    by_cases h : p.1 = a
    · subst h
      simp [bumpAction]
      tauto
    · simp [bumpAction, h, ih]
      tauto

theorem nodup_keys_bumpAction (m : List (String × Int)) (a : String)
    (h : (m.map Prod.fst).Nodup) : ((bumpAction m a).map Prod.fst).Nodup := by
  induction m with
  | nil => simp [bumpAction]
  | cons p rest ih =>
    rw [List.map_cons, List.nodup_cons] at h
    by_cases hpa : p.1 = a
    · rw [bumpAction, if_pos hpa, List.map_cons, List.nodup_cons]
      exact ⟨h.1, h.2⟩
    · rw [bumpAction, if_neg hpa, List.map_cons, List.nodup_cons]
      refine ⟨?_, ih h.2⟩
      rw [mem_keys_bumpAction]
      rintro (hmem | rfl)
      · exact h.1 hmem
      · exact hpa rfl

theorem nodup_keys_aggFold (l : List TaskResponse) :
    ∀ m : List (String × Int), (m.map Prod.fst).Nodup →
      ((l.foldl (fun m task => bumpAction m task.Action) m).map Prod.fst).Nodup := by
  induction l with
  | nil => intro m h; exact h
  | cons r t ih =>
    intro m h
    rw [List.foldl_cons]
    exact ih _ (nodup_keys_bumpAction m r.Action h)

theorem nodup_keys_AggregateTasks (tr : TasksResponse) :
    ((AggregateTasks tr).CountByAction.map Prod.fst).Nodup :=
  nodup_keys_aggFold tr.Tasks [] (by simp)

theorem lookupAssoc_of_mem {α : Type} (m : List (String × α)) (p : String × α)
    (hnd : (m.map Prod.fst).Nodup) (hp : p ∈ m) : lookupAssoc m p.1 = some p.2 := by
  induction m with
  | nil => cases hp
  | cons q rest ih =>
    rw [List.map_cons, List.nodup_cons] at hnd
    cases List.mem_cons.mp hp with
    | inl h => subst h; simp [lookupAssoc]
    | inr h' =>
      have hq : ¬ q.1 = p.1 := by
        intro he
        exact hnd.1 (by rw [he]; exact List.mem_map_of_mem Prod.fst h')
      rw [lookupAssoc, if_neg hq]
      exact ih hnd.2 h'

theorem bumpAction_values_pos (m : List (String × Int)) (a : String)
    (h : ∀ p ∈ m, 1 ≤ p.2) : ∀ p ∈ bumpAction m a, 1 ≤ p.2 := by
  induction m with
  | nil =>
    intro p hp
    rw [bumpAction, List.mem_singleton] at hp
    subst hp
    exact le_refl 1
  | cons q rest ih =>
    intro p hp
    by_cases hqa : q.1 = a
    · rw [bumpAction, if_pos hqa] at hp
      rcases List.mem_cons.mp hp with he | hm
      · have hq1 : (1 : Int) ≤ q.2 := h q (List.mem_cons_self q rest)
        subst he
        show (1 : Int) ≤ q.2 + 1
        omega
      · exact h p (List.mem_cons_of_mem q hm)
    · rw [bumpAction, if_neg hqa] at hp
      rcases List.mem_cons.mp hp with he | hm
      · subst he
        exact h p (List.mem_cons_self p rest)
      · exact ih (fun x hx => h x (List.mem_cons_of_mem q hx)) p hm

theorem aggFold_values_pos (l : List TaskResponse) :
    ∀ m : List (String × Int), (∀ p ∈ m, 1 ≤ p.2) →
      ∀ p ∈ l.foldl (fun m task => bumpAction m task.Action) m, 1 ≤ p.2 := by
  induction l with
  | nil => intro m h; exact h
  | cons r t ih =>
    intro m h
    rw [List.foldl_cons]
    exact ih _ (bumpAction_values_pos m r.Action h)

/-! Lemmas about JSON field lookup -/

theorem jsonLookup_of_no_key (l : List (String × Json)) (k : String)
    (h : ∀ p ∈ l, ¬ p.1 = k) : jsonLookup l k = none := by
  induction l with
  | nil => rfl
  | cons p rest ih =>
    rw [jsonLookup, ih (fun x hx => h x (List.mem_cons_of_mem p hx)),
      if_neg (h p (by simp))]

theorem jsonLookup_append_single (l : List (String × Json)) (k : String) (v : Json) :
    jsonLookup (l ++ [(k, v)]) k = some v := by
  induction l with
  | nil => simp [jsonLookup]
  | cons p rest ih => rw [List.cons_append, jsonLookup, ih]

theorem decodeTaskResponse_obj (fields : List (String × Json)) :
    decodeTaskResponse (Json.obj fields)
      = match jsonLookup fields "action" with
        | none => Except.ok { Action := "" }
        | some Json.null => Except.ok { Action := "" }
        | some (Json.str s) => Except.ok { Action := s }
        | some _ => Except.error "json: cannot unmarshal value into field action of type string" :=
  rfl

theorem unmarshalTasksResponse_obj (fields : List (String × Json)) :
    unmarshalTasksResponse (Json.obj fields)
      = match jsonLookup fields "tasks" with
        | none => Except.ok { Tasks := [] }
        | some Json.null => Except.ok { Tasks := [] }
        | some (Json.arr js) => (decodeTaskList js).map (fun ts => { Tasks := ts })
        | some _ => Except.error "json: cannot unmarshal value into field tasks of type array" :=
  rfl

/-! Reduction lemmas for the fetch pipeline -/

theorem fetch_pair (t : TaskCollector) (af : String)
    (g : Except String HttpResponse) (c : Except String Unit) :
    t.fetchAndDecodeAndAggregateTaskStats af g c
      = ((t.fetchAndDecodeAndAggregateTaskStats af g (Except.ok ())).1,
         match g with
         | Except.error _ => []
         | Except.ok _ => closeWarnings c) := by
  cases g with
  | error e => rfl
  | ok res =>
    unfold TaskCollector.fetchAndDecodeAndAggregateTaskStats
    by_cases h : res.statusCode = 200
    · cases hb : res.bodyRead with
      | error e => simp [h, hb, closeWarnings]
      | ok j =>
        cases hu : unmarshalTasksResponse j with
        | error e => simp [h, hb, hu]
        | ok tr => simp [h, hb, hu]
    · simp [h]

theorem fetch_success (t : TaskCollector) (af : String) (res : HttpResponse)
    (c : Except String Unit) (j : Json) (tr : TasksResponse)
    (hs : res.statusCode = 200) (hb : res.bodyRead = Except.ok j)
    (hu : unmarshalTasksResponse j = Except.ok tr) :
    (t.fetchAndDecodeAndAggregateTaskStats af (Except.ok res) c).1
      = Except.ok (AggregateTasks tr) := by
  unfold TaskCollector.fetchAndDecodeAndAggregateTaskStats
  simp [hs, hb, hu]

theorem update_success (t : TaskCollector) (af : String) (res : HttpResponse)
    (c : Except String Unit) (j : Json) (tr : TasksResponse)
    (hs : res.statusCode = 200) (hb : res.bodyRead = Except.ok j)
    (hu : unmarshalTasksResponse j = Except.ok tr) :
    t.Update af (Except.ok res) c
      = ((AggregateTasks tr).CountByAction.map
          (fun p => { desc := taskActionDescName, value := p.2, action := p.1 }), none) := by
  unfold TaskCollector.Update
  rw [fetch_success t af res c j tr hs hb hu]

theorem resolveTasksPath_ends (basePath : String) :
    ∃ pre, resolveTasksPath basePath = pre ++ "_tasks" := by
  rw [resolveTasksPath]
  by_cases h : (String.mk ((basePath.toList.reverse.dropWhile (fun c => ¬ c = '/')).reverse)
      ++ "_tasks").toList.head? = some '/'
  · rw [if_pos h]
    exact ⟨_, rfl⟩
  · rw [if_neg h]
    exact ⟨"/" ++ String.mk ((basePath.toList.reverse.dropWhile (fun c => ¬ c = '/')).reverse),
      (String.append_assoc _ _ _).symm⟩

/-! The claims -/

/-- Claim C1: for every task snapshot and every action string, the count
stored by `AggregateTasks` for that action equals the number of records
whose `action` field equals that exact string; an action appears as a key
exactly when such a record exists; the empty snapshot yields the empty
mapping. -/
theorem claim_C1_aggregate_counts (tr : TasksResponse) (a : String) :
    lookupAssoc (AggregateTasks tr).CountByAction a
        = (if countAction tr.Tasks a = 0 then none
           else some (countAction tr.Tasks a : Int))
    ∧ (a ∈ (AggregateTasks tr).CountByAction.map Prod.fst
        ↔ ∃ r ∈ tr.Tasks, r.Action = a)
    ∧ AggregateTasks { Tasks := [] } = { CountByAction := [] } :=
  ⟨lookupAssoc_AggregateTasks tr a, mem_keys_AggregateTasks tr a, rfl⟩

/-- Claim C6: `AggregateTasks` is order-independent — any permutation of
the input records yields a mapping with identical lookups at every
action. -/
theorem claim_C6_permutation_invariant (l₁ l₂ : List TaskResponse)
    (h : l₁.Perm l₂) (a : String) :
    lookupAssoc (AggregateTasks { Tasks := l₁ }).CountByAction a
      = lookupAssoc (AggregateTasks { Tasks := l₂ }).CountByAction a := by
  rw [lookupAssoc_AggregateTasks, lookupAssoc_AggregateTasks]
  have hc : countAction l₁ a = countAction l₂ a := by
    unfold countAction
    exact List.Perm.length_eq (List.Perm.filter (fun r => decide (r.Action = a)) h)
  rw [hc]

theorem claim_C6_witness :
    lookupAssoc (AggregateTasks
        { Tasks := [{ Action := "indices:data/write/bulk" },
                    { Action := "cluster:monitor/nodes/stats" }] }).CountByAction
        "indices:data/write/bulk"
      = lookupAssoc (AggregateTasks
        { Tasks := [{ Action := "cluster:monitor/nodes/stats" },
                    { Action := "indices:data/write/bulk" }] }).CountByAction
        "indices:data/write/bulk" :=
  claim_C6_permutation_invariant _ _
    (List.Perm.swap { Action := "cluster:monitor/nodes/stats" }
      { Action := "indices:data/write/bulk" } []) "indices:data/write/bulk"

/-- Claim C5: for every configured action filter, the upstream request is
a GET of the `_tasks` sub-path resolved against the base URL, and its
query carries `group_by=none` and an `actions` parameter equal verbatim
to the filter. -/
theorem claim_C5_request_shape (base : URL) (actionFilter : String) :
    (fetchRequest base actionFilter).method = "GET"
    ∧ (fetchRequest base actionFilter).url = buildTasksURL base actionFilter
    ∧ lookupAssoc (buildTasksURL base actionFilter).query "group_by" = some "none"
    ∧ lookupAssoc (buildTasksURL base actionFilter).query "actions" = some actionFilter
    ∧ (buildTasksURL base actionFilter).path = resolveTasksPath base.path
    ∧ ∃ pre, (buildTasksURL base actionFilter).path = pre ++ "_tasks" :=
  ⟨rfl, rfl, rfl, rfl, rfl, resolveTasksPath_ends base.path⟩

/-- Claim C9: `NewTaskCollector` is total — for every logger, base URL and
HTTP client it returns a ready collector holding exactly those references
(after logging the active filter) and never returns an error. There is no
validation step that could fail. -/
theorem claim_C9_construction_total (logger : Logger) (u : URL) (hc : HttpClient)
    (actionFilter : String) :
    NewTaskCollector logger u hc actionFilter
      = (Except.ok { logger := logger, hc := hc, u := u },
         [("task collector created", actionFilter)]) :=
  rfl

/-- Claim C2: whenever the fetch-and-decode step fails, `Update` returns
exactly one error wrapping the underlying failure with the context
`failed to fetch and decode task stats` and emits zero samples. -/
theorem claim_C2_failed_cycle (t : TaskCollector) (actionFilter : String)
    (g : Except String HttpResponse) (c : Except String Unit) (e : String)
    (h : (t.fetchAndDecodeAndAggregateTaskStats actionFilter g c).1 = Except.error e) :
    t.Update actionFilter g c
      = ([], some ("failed to fetch and decode task stats: " ++ e)) := by
  unfold TaskCollector.Update
  rw [h]

theorem claim_C2_witness :
    sampleCollector.Update "indices:*" (Except.error "connection refused") (Except.ok ())
      = ([], some ("failed to fetch and decode task stats: " ++
          "failed to get data stream stats health from http://localhost:9200/_tasks: connection refused")) :=
  claim_C2_failed_cycle sampleCollector "indices:*"
    (Except.error "connection refused") (Except.ok ())
    "failed to get data stream stats health from http://localhost:9200/_tasks: connection refused"
    rfl

/-- Claim C4: a response with any status other than 200 makes the fetch
fail with an error naming the requested URL and the status code, the
result never depends on the body, and the cycle emits zero samples. -/
theorem claim_C4_non_200 (t : TaskCollector) (af : String)
    (res : HttpResponse) (c : Except String Unit)
    (h : res.statusCode ≠ 200) :
    (t.fetchAndDecodeAndAggregateTaskStats af (Except.ok res) c).1
        = Except.error ("HTTP Request to " ++ (buildTasksURL t.u af).render
            ++ " failed with code " ++ toString res.statusCode)
    ∧ (∀ b, (t.fetchAndDecodeAndAggregateTaskStats af
          (Except.ok { statusCode := res.statusCode, bodyRead := b }) c).1
        = (t.fetchAndDecodeAndAggregateTaskStats af (Except.ok res) c).1)
    ∧ t.Update af (Except.ok res) c
        = ([], some ("failed to fetch and decode task stats: " ++
            ("HTTP Request to " ++ (buildTasksURL t.u af).render
              ++ " failed with code " ++ toString res.statusCode))) := by
  have h1 : (t.fetchAndDecodeAndAggregateTaskStats af (Except.ok res) c).1
      = Except.error ("HTTP Request to " ++ (buildTasksURL t.u af).render
          ++ " failed with code " ++ toString res.statusCode) := by
    unfold TaskCollector.fetchAndDecodeAndAggregateTaskStats
    simp [h]
  refine ⟨h1, ?_, ?_⟩
  · intro b
    have h2 : (t.fetchAndDecodeAndAggregateTaskStats af
        (Except.ok { statusCode := res.statusCode, bodyRead := b }) c).1
        = Except.error ("HTTP Request to " ++ (buildTasksURL t.u af).render
            ++ " failed with code " ++ toString res.statusCode) := by
      unfold TaskCollector.fetchAndDecodeAndAggregateTaskStats
      simp [h]
    rw [h2, h1]
  · unfold TaskCollector.Update
    rw [h1]

theorem claim_C4_witness :
    (buildTasksURL sampleCollector.u "indices:*").render
        = "http://localhost:9200/_tasks?actions=indices:*&group_by=none"
    ∧ (sampleCollector.fetchAndDecodeAndAggregateTaskStats "indices:*"
        (Except.ok res503) (Except.ok ())).1
      = Except.error ("HTTP Request to " ++ (buildTasksURL sampleCollector.u "indices:*").render
          ++ " failed with code " ++ toString res503.statusCode)
    ∧ sampleCollector.Update "indices:*" (Except.ok res503) (Except.ok ())
      = ([], some ("failed to fetch and decode task stats: " ++
          ("HTTP Request to " ++ (buildTasksURL sampleCollector.u "indices:*").render
            ++ " failed with code " ++ toString res503.statusCode))) := by
  have h := claim_C4_non_200 sampleCollector "indices:*" res503 (Except.ok ()) (by decide)
  exact ⟨rfl, h.1, h.2.2⟩

/-- Claim C8: the outcome of the deferred `res.Body.Close()` never changes
the value/error returned by the fetch (the close error is assigned to a
local variable only); a failing close merely adds a warning log line, and
a successful close adds none. -/
theorem claim_C8_close_failure_not_masking (t : TaskCollector) (af : String)
    (g : Except String HttpResponse) (c₁ c₂ : Except String Unit)
    (res : HttpResponse) (e : String) :
    (t.fetchAndDecodeAndAggregateTaskStats af g c₁).1
        = (t.fetchAndDecodeAndAggregateTaskStats af g c₂).1
    ∧ (t.fetchAndDecodeAndAggregateTaskStats af (Except.ok res) (Except.error e)).2
        = [("failed to close http.Client", e)]
    ∧ (t.fetchAndDecodeAndAggregateTaskStats af (Except.ok res) (Except.ok ())).2
        = [] := by
  refine ⟨?_, ?_, ?_⟩
  · rw [fetch_pair t af g c₁, fetch_pair t af g c₂]
  · rw [fetch_pair]; rfl
  · rw [fetch_pair]; rfl

/-- Claim C3: on a successful cycle `Update` returns no error and the
emitted samples carry exactly the distinct actions observed in the
decoded snapshot — one gauge sample per distinct action, valued at that
action's count, never zero, and a pure function of this cycle's input
alone (so nothing can carry over between cycles). -/
theorem claim_C3_success_emits_exactly_observed (t : TaskCollector) (af : String)
    (res : HttpResponse) (c : Except String Unit) (j : Json) (tr : TasksResponse)
    (hs : res.statusCode = 200) (hb : res.bodyRead = Except.ok j)
    (hu : unmarshalTasksResponse j = Except.ok tr) :
    (t.Update af (Except.ok res) c).2 = none
    ∧ (∀ a, a ∈ (t.Update af (Except.ok res) c).1.map Metric.action
        ↔ ∃ r ∈ tr.Tasks, r.Action = a)
    ∧ ((t.Update af (Except.ok res) c).1.map Metric.action).Nodup
    ∧ (∀ m ∈ (t.Update af (Except.ok res) c).1,
        m.desc = taskActionDescName
        ∧ m.value = (countAction tr.Tasks m.action : Int)
        ∧ 1 ≤ m.value) := by
  have hup := update_success t af res c j tr hs hb hu
  refine ⟨?_, ?_, ?_, ?_⟩
  · rw [hup]
  · intro a
    rw [hup]
    simp only [List.map_map]
    exact mem_keys_AggregateTasks tr a
  · rw [hup]
    simp only [List.map_map]
    exact nodup_keys_AggregateTasks tr
  · intro m hm
    rw [hup] at hm
    obtain ⟨p, hp, rfl⟩ := List.mem_map.mp hm
    have hl := lookupAssoc_of_mem _ p (nodup_keys_AggregateTasks tr) hp
    rw [lookupAssoc_AggregateTasks] at hl
    by_cases hc : countAction tr.Tasks p.1 = 0
    · rw [if_pos hc] at hl
      exact absurd hl (by simp)
    · rw [if_neg hc] at hl
      have hv : (countAction tr.Tasks p.1 : Int) = p.2 := Option.some.inj hl
      refine ⟨rfl, hv.symm, ?_⟩
      show (1 : Int) ≤ p.2
      omega

theorem claim_C3_witness :
    (sampleCollector.Update "indices:*"
        (Except.ok { statusCode := 200, bodyRead := Except.ok sampleBody })
        (Except.ok ())).2 = none
    ∧ ((sampleCollector.Update "indices:*"
        (Except.ok { statusCode := 200, bodyRead := Except.ok sampleBody })
        (Except.ok ())).1.map Metric.action).Nodup := by
  have h := claim_C3_success_emits_exactly_observed sampleCollector "indices:*"
      { statusCode := 200, bodyRead := Except.ok sampleBody } (Except.ok ())
      sampleBody sampleSnapshot rfl rfl rfl
  exact ⟨h.1, h.2.2.1⟩

/-- Claim C7: unknown fields are ignored, not rejected — extra fields of
the response object besides `tasks`, and extra fields of a task record
besides `action` (on either side of it), leave decoding successful and
the record counted under its action. -/
theorem claim_C7_unknown_fields_ignored (extra rextra : List (String × Json)) (a : String)
    (hx : ∀ p ∈ extra, ¬ p.1 = "action") (hr : ∀ p ∈ rextra, ¬ p.1 = "tasks") :
    decodeTaskResponse (Json.obj (extra ++ [("action", Json.str a)]))
        = Except.ok { Action := a }
    ∧ decodeTaskResponse (Json.obj (("action", Json.str a) :: extra))
        = Except.ok { Action := a }
    ∧ unmarshalTasksResponse (Json.obj (rextra ++
          [("tasks", Json.arr [Json.obj (("action", Json.str a) :: extra)])]))
        = Except.ok { Tasks := [{ Action := a }] }
    ∧ unmarshalTasksResponse (Json.obj
          (("tasks", Json.arr [Json.obj (("action", Json.str a) :: extra)]) :: rextra))
        = Except.ok { Tasks := [{ Action := a }] }
    ∧ lookupAssoc (AggregateTasks { Tasks := [{ Action := a }] }).CountByAction a
        = some 1 := by
  have h1 : jsonLookup (extra ++ [("action", Json.str a)]) "action" = some (Json.str a) :=
    jsonLookup_append_single extra "action" (Json.str a)
  have h2 : jsonLookup (("action", Json.str a) :: extra) "action" = some (Json.str a) := by
    rw [jsonLookup, jsonLookup_of_no_key extra "action" hx]
    simp
  have hd1 : decodeTaskResponse (Json.obj (extra ++ [("action", Json.str a)]))
      = Except.ok { Action := a } := by
    rw [decodeTaskResponse_obj, h1]
  have hd2 : decodeTaskResponse (Json.obj (("action", Json.str a) :: extra))
      = Except.ok { Action := a } := by
    rw [decodeTaskResponse_obj, h2]
  have h3 : jsonLookup (rextra ++
        [("tasks", Json.arr [Json.obj (("action", Json.str a) :: extra)])]) "tasks"
      = some (Json.arr [Json.obj (("action", Json.str a) :: extra)]) :=
    jsonLookup_append_single rextra "tasks" _
  have hu : unmarshalTasksResponse (Json.obj (rextra ++
        [("tasks", Json.arr [Json.obj (("action", Json.str a) :: extra)])]))
      = Except.ok { Tasks := [{ Action := a }] } := by
    rw [unmarshalTasksResponse_obj, h3]
    simp [decodeTaskList, hd2, Except.map]
  have h5 : jsonLookup
        (("tasks", Json.arr [Json.obj (("action", Json.str a) :: extra)]) :: rextra) "tasks"
      = some (Json.arr [Json.obj (("action", Json.str a) :: extra)]) := by
    rw [jsonLookup, jsonLookup_of_no_key rextra "tasks" hr]
    simp
  have hu2 : unmarshalTasksResponse (Json.obj
        (("tasks", Json.arr [Json.obj (("action", Json.str a) :: extra)]) :: rextra))
      = Except.ok { Tasks := [{ Action := a }] } := by
    rw [unmarshalTasksResponse_obj, h5]
    simp [decodeTaskList, hd2, Except.map]
  have h4 : lookupAssoc (AggregateTasks { Tasks := [{ Action := a }] }).CountByAction a
      = some 1 := by
    have hchar := lookupAssoc_AggregateTasks { Tasks := [{ Action := a }] } a
    have hc : countAction [{ Action := a }] a = 1 := by simp [countAction]
    rw [hc] at hchar
    simpa using hchar
  exact ⟨hd1, hd2, hu, hu2, h4⟩

theorem claim_C7_witness :
    unmarshalTasksResponse (Json.obj [("nodes", Json.obj []),
        ("tasks", Json.arr [Json.obj [("action", Json.str "indices:data/write/bulk"),
          ("node_id", Json.str "n1"), ("running_time_in_nanos", Json.num 1234)]])])
      = Except.ok { Tasks := [{ Action := "indices:data/write/bulk" }] }
    ∧ lookupAssoc (AggregateTasks
        { Tasks := [{ Action := "indices:data/write/bulk" }] }).CountByAction
        "indices:data/write/bulk" = some 1 := by
  have h := claim_C7_unknown_fields_ignored
      [("node_id", Json.str "n1"), ("running_time_in_nanos", Json.num 1234)]
      [("nodes", Json.obj [])] "indices:data/write/bulk"
      (by simp) (by simp)
  exact ⟨h.2.2.1, h.2.2.2.2⟩

/-- Claim C10: `AggregateTasks` always yields a well-defined (non-nil)
mapping in which every stored count is at least 1; a record decoded from a
task object without an `action` field gets the empty-string action and is
counted under the empty-string key. -/
theorem claim_C10_counts_at_least_one (tr : TasksResponse) :
    (∀ p ∈ (AggregateTasks tr).CountByAction, 1 ≤ p.2)
    ∧ (∀ fields : List (String × Json), jsonLookup fields "action" = none →
        decodeTaskResponse (Json.obj fields) = Except.ok { Action := "" })
    ∧ (∀ r ∈ tr.Tasks, r.Action = "" →
        lookupAssoc (AggregateTasks tr).CountByAction ""
            = some (countAction tr.Tasks "" : Int)
          ∧ 1 ≤ (countAction tr.Tasks "" : Int)) := by
  refine ⟨?_, ?_, ?_⟩
  · exact aggFold_values_pos tr.Tasks [] (by simp)
  · intro fields hnone
    rw [decodeTaskResponse_obj, hnone]
  · intro r hr hra
    have hc : countAction tr.Tasks "" ≠ 0 :=
      (countAction_ne_zero_iff tr.Tasks "").mpr ⟨r, hr, hra⟩
    refine ⟨?_, ?_⟩
    · rw [lookupAssoc_AggregateTasks, if_neg hc]
    · omega

theorem claim_C10_witness :
    lookupAssoc (AggregateTasks { Tasks := [{ Action := "" }] }).CountByAction ""
        = some (countAction [{ Action := "" }] "" : Int)
    ∧ 1 ≤ (countAction [{ Action := "" }] "" : Int) :=
  (claim_C10_counts_at_least_one { Tasks := [{ Action := "" }] }).2.2
    { Action := "" } (List.mem_singleton.mpr rfl) rfl

end ElasticsearchExporter
